import Mathlib

set_option linter.unusedVariables false

/-! Shallow embedding of the RakshakAI mobile client: the API service module
(react_native/app/services/api.ts), the video-call screen
(react_native/app/(tabs)/videocall.tsx) and the voice-consultation screen
(react_native/app/(tabs)/firstscreen.tsx).

Network effects are made explicit: each fetch is represented by the outcome
the environment hands back (its response, or the error it throws), and the
functions additionally return the list of requests they issued (and, for the
polling loop, the full ordered event trace of progress callbacks, requests
and delays). -/

/-- Base URL of the hosted multi-agent service (api.ts line 3). -/
def MULTI_AGENT_BASE_URL : String := "https://nokia-multi-agent.vercel.app"

/-- Base URL of the hosted backend service (api.ts line 4). -/
def BACKEND_BASE_URL : String := "https://nokia-backend.vercel.app"

/-- An HTTP request issued by the api.ts module: its method and full URL. -/
structure Request where
  method : String
  url : String
deriving DecidableEq, Repr

/-- Digit for a hex nibble, upper case, as produced by percent-encoding. -/
def hexDigitChar (n : Nat) : Char :=
  if n < 10 then Char.ofNat (48 + n) else Char.ofNat (55 + n)

/-- UTF-8 bytes of a character, as percent-encoding operates on them. -/
def utf8Bytes (c : Char) : List Nat :=
  let n := c.toNat
  if n < 128 then [n]
  else if n < 2048 then [192 + n / 64, 128 + n % 64]
  else if n < 65536 then [224 + n / 4096, 128 + (n / 64) % 64, 128 + n % 64]
  else [240 + n / 262144, 128 + (n / 4096) % 64, 128 + (n / 64) % 64, 128 + n % 64]

/-- Characters JavaScript's encodeURIComponent leaves unescaped. -/
def isURIUnreserved (c : Char) : Bool :=
  c.isAlpha || c.isDigit || c == '-' || c == '_' || c == '.' || c == '!' ||
    c == '~' || c == '*' || c == Char.ofNat 39 || c == '(' || c == ')'

/-- Percent-encoding of one byte. -/
def percentEncodeByte (b : Nat) : String :=
  String.mk ['%', hexDigitChar (b / 16), hexDigitChar (b % 16)]

/-- JavaScript's encodeURIComponent, used on the call id in getStatus. -/
def encodeURIComponent (s : String) : String :=
  String.join (s.toList.map (fun c =>
    if isURIUnreserved c then String.mk [c]
    else String.join ((utf8Bytes c).map percentEncodeByte)))

/-- Location of the ambulance inside an emergency result (api.ts). -/
structure AmbulanceLocation where
  latitude : Float
  longitude : Float

/-- Result payload of an emergency classification (api.ts EmergencyResponse). -/
structure EmergencyResult where
  call_sid : String
  ambulance_location : Option AmbulanceLocation
  status : String

/-- Patient information block shared by several payloads (api.ts). -/
structure PatientInformation where
  name : String
  date : String
  duration : String

/-- Result payload of a non-emergency classification (api.ts NonEmergencyResponse). -/
structure NonEmergencyResult where
  call_id : String
  patient_information : PatientInformation
  chief_complaint : String
  reported_symptoms : List String
  ai_analysis : String
  recommended_specialty : String

/-- Union AnalyzeResponse = EmergencyResponse | NonEmergencyResponse, with the
literal classification tag encoded as the constructor (api.ts). -/
inductive AnalyzeResponse where
  | emergency (message : String) (result : EmergencyResult)
  | non_emergency (message : String) (result : NonEmergencyResult)

/-- Driver info inside emergency details (api.ts DriverInfo). -/
structure DriverInfo where
  name : String
  status : String
  latitude : Float
  longitude : Float

/-- Patient location inside emergency details (api.ts PatientLocation). -/
structure PatientLocation where
  location : String
  latitude : Float
  longitude : Float

/-- Emergency details object of a StatusResponse (api.ts). -/
structure EmergencyDetails where
  call_id : String
  status : String
  driver : DriverInfo
  patient : PatientLocation

/-- Medical record details object of a StatusResponse (api.ts). -/
structure MedicalRecordDetails where
  call_id : String
  patient_information : PatientInformation
  chief_complaint : String
  reported_symptoms : List String
  ai_analysis : String
  recommended_specialty : String

/-- A StatusResponse field that is either a details object, a placeholder
string such as 'No emergency data', or (at runtime) null. The JavaScript
checks typeof f === 'object' and f !== null, which holds exactly for the
obj constructor. -/
inductive DetailsField (α : Type) where
  | obj (val : α)
  | str (s : String)
  | nullVal

/-- Whether a field is a non-null object, i.e. typeof f === 'object' and
f !== null in the source. -/
def DetailsField.isNonNullObject {α : Type} : DetailsField α → Bool
  | .obj _ => true
  | _ => false

/-- Response of the backend /status endpoint (api.ts StatusResponse). -/
structure StatusResponse where
  call_id : String
  emergency_details : DetailsField EmergencyDetails
  medical_record_details : DetailsField MedicalRecordDetails

/-- Outcome the environment hands back for the fetch inside analyzeQuery:
an ok response with parsed data, a non-ok response whose parsed error body
may carry a message, or a thrown network error. -/
inductive AnalyzeFetchOutcome where
  | success (data : AnalyzeResponse)
  | httpError (message : Option String)
  | networkError (e : String)

/-- analyzeQuery (api.ts lines 75-95): one POST to the multi-agent /analyze
endpoint; a non-ok response throws errorData.message or the fixed fallback,
and the catch block rethrows whatever was thrown. Returns the result and the
list of requests issued. -/
def analyzeQuery (query : String) (outcome : AnalyzeFetchOutcome) :
    Except String AnalyzeResponse × List Request :=
  ( match outcome with
    | .success data => Except.ok data
    | .httpError message => Except.error (message.getD "Failed to analyze query")
    | .networkError e => Except.error e,
    [{ method := "POST", url := MULTI_AGENT_BASE_URL ++ "/analyze" }] )

/-- Outcome the environment hands back for the fetch inside getStatus. -/
inductive GetStatusFetchOutcome where
  | success (data : StatusResponse)
  | httpError (status : Nat)
  | networkError (e : String)

/-- The GET request getStatus issues for a call id (api.ts line 100). -/
def statusRequest (callId : String) : Request :=
  { method := "GET",
    url := BACKEND_BASE_URL ++ "/status?call_id=" ++ encodeURIComponent callId }

/-- getStatus (api.ts lines 98-117): one GET to the backend /status endpoint;
a 404 throws 'No records found for this call ID', another non-ok response
throws 'Failed to fetch status', and the catch block rethrows. -/
def getStatus (callId : String) (outcome : GetStatusFetchOutcome) :
    Except String StatusResponse × List Request :=
  ( match outcome with
    | .success data => Except.ok data
    | .httpError status =>
        if status = 404 then Except.error "No records found for this call ID"
        else Except.error "Failed to fetch status"
    | .networkError e => Except.error e,
    [statusRequest callId] )

/-- Options object of pollStatus; the onProgress callback is modelled by
whether it was supplied (api.ts lines 121-126). -/
structure PollOptions where
  maxAttempts : Option Nat := none
  interval : Option Nat := none
  onProgress : Bool := false

/-- One observable event of a pollStatus run: an onProgress callback with its
arguments, an issued getStatus request tagged with the loop attempt that
issued it, or a delay of the given milliseconds. -/
inductive PollEvent where
  | progress (attempt maxAttempts : Nat)
  | request (attempt : Nat) (r : Request)
  | delay (ms : Nat)
deriving DecidableEq, Repr

/-- Message thrown when the final attempt of pollStatus threw (api.ts line 147). -/
def timeoutDataMsg : String := "Timeout: Data not available after maximum attempts"

/-- Message thrown when the loop of pollStatus ran out (api.ts line 155). -/
def timeoutFailedMsg : String := "Timeout: Failed to get status after maximum attempts"

/-- The meaningful-data test of pollStatus (api.ts lines 132-135): the
emergency details or the medical record details are a non-null object. -/
def hasMeaningfulData (status : StatusResponse) : Bool :=
  status.emergency_details.isNonNullObject || status.medical_record_details.isNonNullObject

/-- Loop body of pollStatus (api.ts lines 127-153), with the loop counter
attempt running up to maxAttempts. fetches gives the outcome of the fetch
performed by the getStatus call of each attempt. Returns the overall result
together with the ordered event trace. -/
def pollGo (callId : String) (fetches : Nat → GetStatusFetchOutcome)
    (maxAttempts interval : Nat) (hasProgress : Bool) (attempt : Nat) :
    Except String StatusResponse × List PollEvent :=
  if h : maxAttempts < attempt then
    (Except.error timeoutFailedMsg, [])
  else
    let pre : List PollEvent :=
      (if hasProgress then [PollEvent.progress attempt maxAttempts] else []) ++
        [PollEvent.request attempt (statusRequest callId)]
    match (getStatus callId (fetches attempt)).1 with
    | Except.ok status =>
        if hasMeaningfulData status then
          (Except.ok status, pre)
        else
          let rest := pollGo callId fetches maxAttempts interval hasProgress (attempt + 1)
          (rest.1, pre ++ PollEvent.delay interval :: rest.2)
    | Except.error _ =>
        if attempt = maxAttempts then
          (Except.error timeoutDataMsg, pre)
        else
          let rest := pollGo callId fetches maxAttempts interval hasProgress (attempt + 1)
          (rest.1, pre ++ PollEvent.delay interval :: rest.2)
termination_by maxAttempts + 1 - attempt
decreasing_by all_goals omega

/-- pollStatus (api.ts lines 119-156): destructures the options with defaults
maxAttempts = 5 and interval = 2000 and runs the loop from attempt 1. -/
def pollStatus (callId : String) (options : PollOptions)
    (fetches : Nat → GetStatusFetchOutcome) :
    Except String StatusResponse × List PollEvent :=
  pollGo callId fetches (options.maxAttempts.getD 5) (options.interval.getD 2000)
    options.onProgress 1

/-- Whether a poll event is an issued getStatus request. -/
def isRequestEvent : PollEvent → Bool
  | .request _ _ => true
  | _ => false

/-- Number of getStatus requests in a poll event trace. -/
def countRequests (evs : List PollEvent) : Nat :=
  evs.countP isRequestEvent

/-- The requests contained in a poll event trace, in order. -/
def pollRequests (evs : List PollEvent) : List Request :=
  evs.filterMap (fun e => match e with
    | .request _ r => some r
    | _ => none)

/-- Outcome the environment hands back for the fetch of a health check. -/
inductive HealthFetchOutcome where
  | resolved (ok : Bool)
  | networkError (e : String)
deriving DecidableEq, Repr

/-- checkMultiAgentHealth (api.ts lines 159-167): returns response.ok, and the
catch-all returns false, so it never throws. Also returns the issued request. -/
def checkMultiAgentHealth (outcome : HealthFetchOutcome) : Bool × List Request :=
  ( match outcome with
    | .resolved ok => ok
    | .networkError _ => false,
    [{ method := "GET", url := MULTI_AGENT_BASE_URL ++ "/health" }] )

/-- checkBackendHealth (api.ts lines 170-178): same shape against the backend
root endpoint. -/
def checkBackendHealth (outcome : HealthFetchOutcome) : Bool × List Request :=
  ( match outcome with
    | .resolved ok => ok
    | .networkError _ => false,
    [{ method := "GET", url := BACKEND_BASE_URL ++ "/" }] )

/-- A media stream track as the video-call screen observes it: its kind
('audio' or 'video'), its enabled flag and whether stop() was called on it. -/
structure MediaStreamTrack where
  kind : String
  enabled : Bool
  stopped : Bool
deriving DecidableEq, Repr

/-- A media stream: the list of its tracks. -/
structure MediaStream where
  tracks : List MediaStreamTrack
deriving DecidableEq, Repr

/-- An RTP sender of the underlying peer connection, carrying its current
outgoing track (possibly null). -/
structure Sender where
  track : Option MediaStreamTrack
deriving DecidableEq, Repr

/-- The peer connection of a call: the list of its senders, as returned by
getSenders(). -/
structure PeerConnection where
  senders : List Sender
deriving DecidableEq, Repr

/-- A PeerJS MediaConnection as videocall.tsx uses it: its underlying peer
connection, which may be absent. -/
structure MediaConnection where
  peerConnection : Option PeerConnection
deriving DecidableEq, Repr

/-- Camera facing mode of the video-call screen. -/
inductive FacingMode where
  | user
  | environment
deriving DecidableEq, Repr

/-- State of the VideoCall component (videocall.tsx): its useState values and
the refs the claimed handlers touch. callStartTime holds the epoch of the
call start when one is recorded. -/
structure VideoCallState where
  localStream : Option MediaStream
  remoteStream : Option MediaStream
  peerId : String
  remotePeerId : String
  isCalling : Bool
  isCallActive : Bool
  isMuted : Bool
  isVideoOff : Bool
  isSpeakerOn : Bool
  facingMode : FacingMode
  callDuration : Nat
  peerReady : Bool
  isProcessing : Bool
  currentCall : Option MediaConnection
  callStartTime : Option Nat
deriving DecidableEq, Repr

/-- Marks a track as stopped, as track.stop() does. -/
def stopTrack (t : MediaStreamTrack) : MediaStreamTrack :=
  { t with stopped := true }

/-- Side effects of one endCall run: whether close() was called on the
current call, the tracks of the local stream after each was stopped, and
whether handleCallAnalysis was triggered. -/
structure EndCallEffects where
  closedCall : Bool
  stoppedTracks : List MediaStreamTrack
  analysisTriggered : Bool
deriving DecidableEq, Repr

/-- endCall (videocall.tsx lines 385-418): remembers whether a call start
time was recorded, closes and clears the current call, stops every track of
the local stream and clears it, clears the remote stream, resets the
isCallActive, isCalling, isMuted and isVideoOff flags, and triggers the
analysis when a call start time was recorded. -/
def endCall (s : VideoCallState) : VideoCallState × EndCallEffects :=
  let shouldAnalyze := s.callStartTime.isSome
  let closed := s.currentCall.isSome
  let stopped := match s.localStream with
    | some ls => ls.tracks.map stopTrack
    | none => []
  ( { s with currentCall := none,
             localStream := none,
             remoteStream := none,
             isCallActive := false,
             isCalling := false,
             isMuted := false,
             isVideoOff := false },
    { closedCall := closed, stoppedTracks := stopped, analysisTriggered := shouldAnalyze } )

/-- First track of kind 'audio' in a track list, i.e. getAudioTracks()[0]. -/
def firstAudioTrack : List MediaStreamTrack → Option MediaStreamTrack
  | [] => none
  | t :: rest => if t.kind == "audio" then some t else firstAudioTrack rest

/-- First track of kind 'video' in a track list, i.e. getVideoTracks()[0]. -/
def firstVideoTrack : List MediaStreamTrack → Option MediaStreamTrack
  | [] => none
  | t :: rest => if t.kind == "video" then some t else firstVideoTrack rest

/-- In-place negation of the enabled flag of the first audio track, the
mutation toggleMute performs on the stream. -/
def updateFirstAudio : List MediaStreamTrack → List MediaStreamTrack
  | [] => []
  | t :: rest =>
      if t.kind == "audio" then { t with enabled := !t.enabled } :: rest
      else t :: updateFirstAudio rest

/-- toggleMute (videocall.tsx lines 420-428): when a local stream exists and
has an audio track, negates the track's enabled flag and sets isMuted to the
negation of the new enabled value; otherwise does nothing. -/
def toggleMute (s : VideoCallState) : VideoCallState :=
  match s.localStream with
  | none => s
  | some ls =>
    match firstAudioTrack ls.tracks with
    | none => s
    | some audioTrack =>
        let newEnabled := !audioTrack.enabled
        { s with localStream := some { ls with tracks := updateFirstAudio ls.tracks },
                 isMuted := !newEnabled }

/-- In-place stop of the first video track, the mutation flipCamera performs
on the old stream before requesting the new one. -/
def stopFirstVideo : List MediaStreamTrack → List MediaStreamTrack
  | [] => []
  | t :: rest =>
      if t.kind == "video" then stopTrack t :: rest
      else t :: stopFirstVideo rest

/-- Whether a sender currently carries a video track, the predicate of the
getSenders().find call in flipCamera. -/
def isVideoSender (sn : Sender) : Bool :=
  match sn.track with
  | some t => t.kind == "video"
  | none => false

/-- replaceTrack on the first video sender: the sender found by
getSenders().find gets the new track, every other sender is untouched. -/
def replaceVideoSender (senders : List Sender) (nt : Option MediaStreamTrack) : List Sender :=
  match senders with
  | [] => []
  | sn :: rest =>
      if isVideoSender sn then { sn with track := nt } :: rest
      else sn :: replaceVideoSender rest nt

/-- flipCamera (videocall.tsx lines 446-484): returns immediately when there
is no local stream; otherwise stops the current video track, computes the
flipped facing mode and requests a new stream (newStreamResult is what
getUserMedia hands back). On success it replaces the track of the video
sender of the current call's peer connection with the new stream's first
video track, stores the new stream and the new facing mode; on failure it
only alerts, leaving the state as it was after the track stop. -/
def flipCamera (s : VideoCallState) (newStreamResult : Except String MediaStream) :
    VideoCallState :=
  match s.localStream with
  | none => s
  | some ls =>
    let tracksAfterStop := stopFirstVideo ls.tracks
    let newFacingMode := if s.facingMode = FacingMode.user then FacingMode.environment
      else FacingMode.user
    match newStreamResult with
    | Except.error _ => { s with localStream := some { ls with tracks := tracksAfterStop } }
    | Except.ok newStream =>
        let newCall := match s.currentCall with
          | none => none
          | some c =>
            match c.peerConnection with
            | none => some c
            | some pc =>
                let pcNew : PeerConnection :=
                  { pc with senders := replaceVideoSender pc.senders (firstVideoTrack newStream.tracks) }
                some { c with peerConnection := some pcNew }
        { s with localStream := some newStream,
                 facingMode := newFacingMode,
                 currentCall := newCall }

/-- Index of the first sender carrying a video track, the position the find
call of flipCamera selects; an observation used to state what replaceTrack
leaves untouched. -/
def firstVideoSenderIdx : List Sender → Option Nat
  | [] => none
  | sn :: rest =>
      if isVideoSender sn then some 0 else (firstVideoSenderIdx rest).map (· + 1)

/-- One entry of the voice-consultation transcript (firstscreen.tsx). The
text is what the handler stores, which for a message event is its transcript
field. -/
structure TranscriptEntry where
  speaker : String
  text : Option String
deriving DecidableEq, Repr

/-- State the Vapi message handler touches: the transcript state and the
transcript ref (firstscreen.tsx lines 12-13). -/
structure FirstScreenState where
  transcript : List TranscriptEntry
  transcriptRef : List TranscriptEntry
deriving DecidableEq, Repr

/-- A Vapi message event payload; absent fields are none. -/
structure VapiMessage where
  type : Option String
  transcriptType : Option String
  role : Option String
  transcript : Option String
deriving DecidableEq, Repr

/-- The 'message' event handler of the voice-consultation screen
(firstscreen.tsx lines 88-103): a final transcript message appends an entry
to both the ref and the state, spoken by 'doctor' when the role is
'assistant' and by 'patient' otherwise; every other message leaves both
unchanged (the conversation-update branch only logs). -/
def onVapiMessage (st : FirstScreenState) (m : VapiMessage) : FirstScreenState :=
  if m.type == some "transcript" && m.transcriptType == some "final" then
    let newMessage : TranscriptEntry :=
      { speaker := if m.role == some "assistant" then "doctor" else "patient",
        text := m.transcript }
    { transcript := st.transcript ++ [newMessage],
      transcriptRef := st.transcriptRef ++ [newMessage] }
  else
    st

/-- Events of one attempt of the polling loop before its outcome is known:
the onProgress callback when supplied, then the getStatus request. Stated
from the spec to describe the shape of the trace. -/
def attemptBlock (hasProgress : Bool) (callId : String) (a maxAttempts : Nat) :
    List PollEvent :=
  (if hasProgress then [PollEvent.progress a maxAttempts] else []) ++
    [PollEvent.request a (statusRequest callId)]

/-- Modelled from the spec, for comparison with the trace the code
produces: the event trace of a run of n attempts starting at attempt a,
with exactly one delay of interval milliseconds between consecutive
attempts and an optional trailing delay after the last one. -/
def specPollTraceFrom (hasProgress : Bool) (callId : String)
    (maxAttempts interval : Nat) (a : Nat) : Nat → Bool → List PollEvent
  | 0, _ => []
  | 1, trailing =>
      attemptBlock hasProgress callId a maxAttempts ++
        (if trailing then [PollEvent.delay interval] else [])
  | n + 2, trailing =>
      attemptBlock hasProgress callId a maxAttempts ++
        PollEvent.delay interval ::
          specPollTraceFrom hasProgress callId maxAttempts interval (a + 1) (n + 1) trailing

/-- A status response with both placeholder strings, carrying no meaningful
data. -/
def noDataResponse : StatusResponse :=
  { call_id := "CALL_1",
    emergency_details := DetailsField.str "No emergency data",
    medical_record_details := DetailsField.str "No medical record data" }

/-- A concrete medical record details object. -/
def medicalSample : MedicalRecordDetails :=
  { call_id := "CALL_1",
    patient_information := { name := "John Smith", date := "2026-10-11", duration := "3 minutes" },
    chief_complaint := "headache",
    reported_symptoms := ["headache", "fatigue"],
    ai_analysis := "mild tension headache",
    recommended_specialty := "General Physician" }

/-- A status response whose medical record details are a non-null object. -/
def medicalResponse : StatusResponse :=
  { call_id := "CALL_1",
    emergency_details := DetailsField.str "No emergency data",
    medical_record_details := DetailsField.obj medicalSample }

/-- Fetch outcomes where the second attempt is the first with meaningful
data. -/
def sampleFetches : Nat → GetStatusFetchOutcome := fun j =>
  if j = 2 then GetStatusFetchOutcome.success medicalResponse
  else GetStatusFetchOutcome.success noDataResponse

/-- A concrete enabled audio track. -/
def audioTrackSample : MediaStreamTrack :=
  { kind := "audio", enabled := true, stopped := false }

/-- A concrete enabled video track. -/
def videoTrackSample : MediaStreamTrack :=
  { kind := "video", enabled := true, stopped := false }

/-- A concrete local stream with one audio and one video track. -/
def sampleStream : MediaStream :=
  { tracks := [audioTrackSample, videoTrackSample] }

/-- A concrete stream returned by getUserMedia for the flipped camera. -/
def newStreamSample : MediaStream :=
  { tracks := [{ kind := "audio", enabled := true, stopped := false },
               { kind := "video", enabled := true, stopped := false }] }

/-- A concrete peer connection with an audio sender and a video sender. -/
def samplePeerConnection : PeerConnection :=
  { senders := [{ track := some audioTrackSample }, { track := some videoTrackSample }] }

/-- A concrete active media connection. -/
def sampleCall : MediaConnection :=
  { peerConnection := some samplePeerConnection }

/-- A concrete in-call component state. -/
def sampleState : VideoCallState :=
  { localStream := some sampleStream,
    remoteStream := some { tracks := [] },
    peerId := "peer-a",
    remotePeerId := "peer-b",
    isCalling := false,
    isCallActive := true,
    isMuted := false,
    isVideoOff := false,
    isSpeakerOn := true,
    facingMode := FacingMode.user,
    callDuration := 42,
    peerReady := true,
    isProcessing := false,
    currentCall := some sampleCall,
    callStartTime := some 1760140800 }

/-- getStatus resolves with a response exactly when its fetch succeeded. -/
theorem getStatus_ok_iff (callId : String) (o : GetStatusFetchOutcome) (d : StatusResponse) :
    (getStatus callId o).1 = Except.ok d ↔ o = GetStatusFetchOutcome.success d := by
  cases o with
  | success data => simp [getStatus]
  | httpError status =>
      simp only [getStatus]
      split <;> simp
  | networkError e => simp [getStatus]

/-- Past the last attempt the loop exits and pollStatus throws the generic
timeout. -/
theorem pollGo_stop (callId : String) (fetches : Nat → GetStatusFetchOutcome)
    (maxA interval : Nat) (hasP : Bool) (a : Nat) (h : maxA < a) :
    pollGo callId fetches maxA interval hasP a = (Except.error timeoutFailedMsg, []) := by
  rw [pollGo]
  simp [h]

/-- An attempt whose getStatus resolves with meaningful data returns it at
once. -/
theorem pollGo_ok_meaningful (callId : String) (fetches : Nat → GetStatusFetchOutcome)
    (maxA interval : Nat) (hasP : Bool) (a : Nat) (st : StatusResponse)
    (h1 : a ≤ maxA) (h2 : (getStatus callId (fetches a)).1 = Except.ok st)
    (h3 : hasMeaningfulData st = true) :
    pollGo callId fetches maxA interval hasP a =
      (Except.ok st, attemptBlock hasP callId a maxA) := by
  rw [pollGo]
  rw [dif_neg (by omega)]
  simp only [h2, h3, attemptBlock, if_true]

/-- An attempt whose getStatus resolves without meaningful data delays and
continues with the next attempt. -/
theorem pollGo_ok_continue (callId : String) (fetches : Nat → GetStatusFetchOutcome)
    (maxA interval : Nat) (hasP : Bool) (a : Nat) (st : StatusResponse)
    (h1 : a ≤ maxA) (h2 : (getStatus callId (fetches a)).1 = Except.ok st)
    (h3 : hasMeaningfulData st = false) :
    pollGo callId fetches maxA interval hasP a =
      ((pollGo callId fetches maxA interval hasP (a + 1)).1,
        attemptBlock hasP callId a maxA ++
          PollEvent.delay interval :: (pollGo callId fetches maxA interval hasP (a + 1)).2) := by
  rw [pollGo]
  rw [dif_neg (by omega)]
  simp only [h2, h3, attemptBlock, Bool.false_eq_true, if_false]

/-- A throwing getStatus on the last attempt makes pollStatus throw the
data-not-available timeout. -/
theorem pollGo_error_last (callId : String) (fetches : Nat → GetStatusFetchOutcome)
    (maxA interval : Nat) (hasP : Bool) (e : String)
    (h2 : (getStatus callId (fetches maxA)).1 = Except.error e) :
    pollGo callId fetches maxA interval hasP maxA =
      (Except.error timeoutDataMsg, attemptBlock hasP callId maxA maxA) := by
  rw [pollGo]
  rw [dif_neg (by omega)]
  simp only [h2, attemptBlock, if_pos rfl]
  simp [attemptBlock]

/-- A throwing getStatus before the last attempt is swallowed: the loop
delays and continues with the next attempt. -/
theorem pollGo_error_continue (callId : String) (fetches : Nat → GetStatusFetchOutcome)
    (maxA interval : Nat) (hasP : Bool) (a : Nat) (e : String)
    (h1 : a < maxA) (h2 : (getStatus callId (fetches a)).1 = Except.error e) :
    pollGo callId fetches maxA interval hasP a =
      ((pollGo callId fetches maxA interval hasP (a + 1)).1,
        attemptBlock hasP callId a maxA ++
          PollEvent.delay interval :: (pollGo callId fetches maxA interval hasP (a + 1)).2) := by
  rw [pollGo]
  rw [dif_neg (by omega)]
  have hne : ¬ a = maxA := by omega
  simp only [h2, attemptBlock, if_neg hne]

/-- Each attempt block contains exactly one getStatus request. -/
theorem countRequests_attemptBlock (hasP : Bool) (callId : String) (a maxA : Nat) :
    countRequests (attemptBlock hasP callId a maxA) = 1 := by
  cases hasP <;>
    simp [attemptBlock, countRequests, List.countP_cons, List.countP_nil, isRequestEvent]

/-- countRequests distributes over append. -/
theorem countRequests_append (l1 l2 : List PollEvent) :
    countRequests (l1 ++ l2) = countRequests l1 + countRequests l2 := by
  simp [countRequests, List.countP_append]

/-- A delay is not a request. -/
theorem countRequests_delay_cons (interval : Nat) (l : List PollEvent) :
    countRequests (PollEvent.delay interval :: l) = countRequests l := by
  simp [countRequests, List.countP_cons, isRequestEvent]

/-- The loop from attempt a issues at most maxA + 1 - a requests. -/
theorem pollGo_count (callId : String) (fetches : Nat → GetStatusFetchOutcome)
    (maxA interval : Nat) (hasP : Bool) :
    ∀ n a, maxA + 1 - a ≤ n →
      countRequests (pollGo callId fetches maxA interval hasP a).2 ≤ maxA + 1 - a := by
  intro n
  induction n with
  | zero =>
      intro a ha
      rw [pollGo_stop callId fetches maxA interval hasP a (by omega)]
      simp [countRequests]
  | succ n ih =>
      intro a ha
      by_cases h : maxA < a
      · rw [pollGo_stop callId fetches maxA interval hasP a h]
        simp [countRequests]
      · have h1 : a ≤ maxA := by omega
        cases hgs : (getStatus callId (fetches a)).1 with
        | ok st =>
            by_cases hm : hasMeaningfulData st
            · rw [pollGo_ok_meaningful callId fetches maxA interval hasP a st h1 hgs hm]
              rw [show ((Except.ok st : Except String StatusResponse),
                attemptBlock hasP callId a maxA).2 = attemptBlock hasP callId a maxA from rfl]
              rw [countRequests_attemptBlock]
              omega
            · have hm' : hasMeaningfulData st = false := by simpa using hm
              rw [pollGo_ok_continue callId fetches maxA interval hasP a st h1 hgs hm']
              have hrec := ih (a + 1) (by omega)
              simp only [countRequests_append, countRequests_delay_cons,
                countRequests_attemptBlock]
              omega
        | error e =>
            by_cases hlast : a = maxA
            · subst hlast
              rw [pollGo_error_last callId fetches a interval hasP e hgs]
              rw [show ((Except.error timeoutDataMsg : Except String StatusResponse),
                attemptBlock hasP callId a a).2 = attemptBlock hasP callId a a from rfl]
              rw [countRequests_attemptBlock]
              omega
            · have h2 : a < maxA := by omega
              rw [pollGo_error_continue callId fetches maxA interval hasP a e h2 hgs]
              have hrec := ih (a + 1) (by omega)
              simp only [countRequests_append, countRequests_delay_cons,
                countRequests_attemptBlock]
              omega

/-- Every error the loop produces is one of the two fixed timeout
messages. -/
theorem pollGo_error_msgs (callId : String) (fetches : Nat → GetStatusFetchOutcome)
    (maxA interval : Nat) (hasP : Bool) :
    ∀ n a, maxA + 1 - a ≤ n →
      ∀ m, (pollGo callId fetches maxA interval hasP a).1 = Except.error m →
        m = timeoutDataMsg ∨ m = timeoutFailedMsg := by
  intro n
  induction n with
  | zero =>
      intro a ha m hm
      rw [pollGo_stop callId fetches maxA interval hasP a (by omega)] at hm
      simp at hm
      exact Or.inr hm.symm
  | succ n ih =>
      intro a ha m hm
      by_cases h : maxA < a
      · rw [pollGo_stop callId fetches maxA interval hasP a h] at hm
        simp at hm
        exact Or.inr hm.symm
      · have h1 : a ≤ maxA := by omega
        cases hgs : (getStatus callId (fetches a)).1 with
        | ok st =>
            by_cases hmeat : hasMeaningfulData st
            · rw [pollGo_ok_meaningful callId fetches maxA interval hasP a st h1 hgs hmeat] at hm
              simp at hm
            · have hm' : hasMeaningfulData st = false := by simpa using hmeat
              rw [pollGo_ok_continue callId fetches maxA interval hasP a st h1 hgs hm'] at hm
              exact ih (a + 1) (by omega) m hm
        | error e =>
            by_cases hlast : a = maxA
            · subst hlast
              rw [pollGo_error_last callId fetches a interval hasP e hgs] at hm
              simp at hm
              exact Or.inl hm.symm
            · have h2 : a < maxA := by omega
              rw [pollGo_error_continue callId fetches maxA interval hasP a e h2 hgs] at hm
              exact ih (a + 1) (by omega) m hm

/-- The trace of the loop from attempt a has the spec shape: some number of
attempt blocks with exactly one delay between consecutive ones. -/
theorem pollGo_trace (callId : String) (fetches : Nat → GetStatusFetchOutcome)
    (maxA interval : Nat) (hasP : Bool) :
    ∀ n a, maxA + 1 - a ≤ n →
      ∃ k t, (pollGo callId fetches maxA interval hasP a).2 =
        specPollTraceFrom hasP callId maxA interval a k t := by
  intro n
  induction n with
  | zero =>
      intro a ha
      refine ⟨0, false, ?_⟩
      rw [pollGo_stop callId fetches maxA interval hasP a (by omega)]
      simp [specPollTraceFrom]
  | succ n ih =>
      intro a ha
      by_cases h : maxA < a
      · refine ⟨0, false, ?_⟩
        rw [pollGo_stop callId fetches maxA interval hasP a h]
        simp [specPollTraceFrom]
      · have h1 : a ≤ maxA := by omega
        cases hgs : (getStatus callId (fetches a)).1 with
        | ok st =>
            by_cases hm : hasMeaningfulData st
            · refine ⟨1, false, ?_⟩
              rw [pollGo_ok_meaningful callId fetches maxA interval hasP a st h1 hgs hm]
              simp [specPollTraceFrom]
            · have hm' : hasMeaningfulData st = false := by simpa using hm
              rw [pollGo_ok_continue callId fetches maxA interval hasP a st h1 hgs hm']
              obtain ⟨k, t, hrest⟩ := ih (a + 1) (by omega)
              cases k with
              | zero =>
                  refine ⟨1, true, ?_⟩
                  simp only [specPollTraceFrom] at hrest ⊢
                  simp [hrest]
              | succ k' =>
                  refine ⟨k' + 2, t, ?_⟩
                  simp only [specPollTraceFrom]
                  simp [hrest]
        | error e =>
            by_cases hlast : a = maxA
            · subst hlast
              refine ⟨1, false, ?_⟩
              rw [pollGo_error_last callId fetches a interval hasP e hgs]
              simp [specPollTraceFrom]
            · have h2 : a < maxA := by omega
              rw [pollGo_error_continue callId fetches maxA interval hasP a e h2 hgs]
              obtain ⟨k, t, hrest⟩ := ih (a + 1) (by omega)
              cases k with
              | zero =>
                  refine ⟨1, true, ?_⟩
                  simp only [specPollTraceFrom] at hrest ⊢
                  simp [hrest]
              | succ k' =>
                  refine ⟨k' + 2, t, ?_⟩
                  simp only [specPollTraceFrom]
                  simp [hrest]

/-- The requests inside an attempt block: exactly the status request. -/
theorem pollRequests_attemptBlock (hasP : Bool) (callId : String) (a maxA : Nat) :
    pollRequests (attemptBlock hasP callId a maxA) = [statusRequest callId] := by
  cases hasP <;> simp [attemptBlock, pollRequests]

/-- pollRequests distributes over append. -/
theorem pollRequests_append (l1 l2 : List PollEvent) :
    pollRequests (l1 ++ l2) = pollRequests l1 ++ pollRequests l2 := by
  simp [pollRequests]

/-- A delay contributes no request. -/
theorem pollRequests_delay_cons (interval : Nat) (l : List PollEvent) :
    pollRequests (PollEvent.delay interval :: l) = pollRequests l := by
  simp [pollRequests]

/-- Every request the loop issues is the status request for the call id. -/
theorem pollGo_requests_all (callId : String) (fetches : Nat → GetStatusFetchOutcome)
    (maxA interval : Nat) (hasP : Bool) :
    ∀ n a, maxA + 1 - a ≤ n →
      ∀ r ∈ pollRequests (pollGo callId fetches maxA interval hasP a).2,
        r = statusRequest callId := by
  intro n
  induction n with
  | zero =>
      intro a ha r hr
      rw [pollGo_stop callId fetches maxA interval hasP a (by omega)] at hr
      simp [pollRequests] at hr
  | succ n ih =>
      intro a ha r hr
      by_cases h : maxA < a
      · rw [pollGo_stop callId fetches maxA interval hasP a h] at hr
        simp [pollRequests] at hr
      · have h1 : a ≤ maxA := by omega
        cases hgs : (getStatus callId (fetches a)).1 with
        | ok st =>
            by_cases hm : hasMeaningfulData st
            · rw [pollGo_ok_meaningful callId fetches maxA interval hasP a st h1 hgs hm] at hr
              simp only [pollRequests_attemptBlock] at hr
              simpa using hr
            · have hm' : hasMeaningfulData st = false := by simpa using hm
              rw [pollGo_ok_continue callId fetches maxA interval hasP a st h1 hgs hm'] at hr
              simp only [pollRequests_append, pollRequests_delay_cons,
                pollRequests_attemptBlock, List.mem_append, List.mem_singleton] at hr
              rcases hr with hr | hr
              · exact hr
              · exact ih (a + 1) (by omega) r hr
        | error e =>
            by_cases hlast : a = maxA
            · subst hlast
              rw [pollGo_error_last callId fetches a interval hasP e hgs] at hr
              simp only [pollRequests_attemptBlock] at hr
              simpa using hr
            · have h2 : a < maxA := by omega
              rw [pollGo_error_continue callId fetches maxA interval hasP a e h2 hgs] at hr
              simp only [pollRequests_append, pollRequests_delay_cons,
                pollRequests_attemptBlock, List.mem_append, List.mem_singleton] at hr
              rcases hr with hr | hr
              · exact hr
              · exact ih (a + 1) (by omega) r hr

/-- If attempt k is the first from a on whose getStatus resolves with
meaningful data, the loop from a returns that response after exactly
k + 1 - a requests. -/
theorem pollGo_first_meaningful (callId : String) (fetches : Nat → GetStatusFetchOutcome)
    (maxA interval : Nat) (hasP : Bool) :
    ∀ n a k s, maxA + 1 - a ≤ n → a ≤ k → k ≤ maxA →
      fetches k = GetStatusFetchOutcome.success s → hasMeaningfulData s = true →
      (∀ j t, a ≤ j → j < k → fetches j = GetStatusFetchOutcome.success t →
        hasMeaningfulData t = false) →
      (pollGo callId fetches maxA interval hasP a).1 = Except.ok s ∧
        countRequests (pollGo callId fetches maxA interval hasP a).2 = k + 1 - a := by
  intro n
  induction n with
  | zero =>
      intro a k s ha hak hkm _ _ _
      omega
  | succ n ih =>
      intro a k s ha hak hkm hfk hms hprev
      by_cases hek : a = k
      · subst hek
        have hgs : (getStatus callId (fetches a)).1 = Except.ok s :=
          (getStatus_ok_iff callId (fetches a) s).mpr hfk
        rw [pollGo_ok_meaningful callId fetches maxA interval hasP a s (by omega) hgs hms]
        refine ⟨rfl, ?_⟩
        simp only [countRequests_attemptBlock]
        omega
      · have hak' : a < k := by omega
        have hrec := ih (a + 1) k s (by omega) (by omega) hkm hfk hms
          (fun j t hj1 hj2 hf => hprev j t (by omega) hj2 hf)
        cases hga : (getStatus callId (fetches a)).1 with
        | ok st =>
            have hfa : fetches a = GetStatusFetchOutcome.success st :=
              (getStatus_ok_iff callId (fetches a) st).mp hga
            have hm : hasMeaningfulData st = false := hprev a st (le_refl a) hak' hfa
            rw [pollGo_ok_continue callId fetches maxA interval hasP a st (by omega) hga hm]
            refine ⟨hrec.1, ?_⟩
            simp only [countRequests_append, countRequests_delay_cons,
              countRequests_attemptBlock]
            omega
        | error e =>
            rw [pollGo_error_continue callId fetches maxA interval hasP a e (by omega) hga]
            refine ⟨hrec.1, ?_⟩
            simp only [countRequests_append, countRequests_delay_cons,
              countRequests_attemptBlock]
            omega

/-- The request of an attempt is in its block. -/
theorem request_mem_attemptBlock (hasP : Bool) (callId : String) (a maxA : Nat) :
    PollEvent.request a (statusRequest callId) ∈ attemptBlock hasP callId a maxA := by
  cases hasP <;> simp [attemptBlock]

/-- As long as every earlier attempt from a on resolves without meaningful
data (errors always continue before the last attempt), the loop reaches
attempt k and issues its request. -/
theorem pollGo_request_mem (callId : String) (fetches : Nat → GetStatusFetchOutcome)
    (maxA interval : Nat) (hasP : Bool) :
    ∀ n a k, maxA + 1 - a ≤ n → a ≤ k → k ≤ maxA →
      (∀ j t, a ≤ j → j < k → fetches j = GetStatusFetchOutcome.success t →
        hasMeaningfulData t = false) →
      PollEvent.request k (statusRequest callId) ∈
        (pollGo callId fetches maxA interval hasP a).2 := by
  intro n
  induction n with
  | zero =>
      intro a k ha hak hkm _
      omega
  | succ n ih =>
      intro a k ha hak hkm hprev
      by_cases hek : a = k
      · subst hek
        cases hga : (getStatus callId (fetches a)).1 with
        | ok st =>
            by_cases hm : hasMeaningfulData st
            · rw [pollGo_ok_meaningful callId fetches maxA interval hasP a st (by omega) hga hm]
              exact request_mem_attemptBlock hasP callId a maxA
            · have hm' : hasMeaningfulData st = false := by simpa using hm
              rw [pollGo_ok_continue callId fetches maxA interval hasP a st (by omega) hga hm']
              simp only [List.mem_append]
              exact Or.inl (request_mem_attemptBlock hasP callId a maxA)
        | error e =>
            by_cases hlast : a = maxA
            · subst hlast
              rw [pollGo_error_last callId fetches a interval hasP e hga]
              exact request_mem_attemptBlock hasP callId a a
            · rw [pollGo_error_continue callId fetches maxA interval hasP a e (by omega) hga]
              simp only [List.mem_append]
              exact Or.inl (request_mem_attemptBlock hasP callId a maxA)
      · have hak' : a < k := by omega
        have hrec := ih (a + 1) k (by omega) (by omega) hkm
          (fun j t hj1 hj2 hf => hprev j t (by omega) hj2 hf)
        cases hga : (getStatus callId (fetches a)).1 with
        | ok st =>
            have hfa : fetches a = GetStatusFetchOutcome.success st :=
              (getStatus_ok_iff callId (fetches a) st).mp hga
            have hm : hasMeaningfulData st = false := hprev a st (le_refl a) hak' hfa
            rw [pollGo_ok_continue callId fetches maxA interval hasP a st (by omega) hga hm]
            simp only [List.mem_append, List.mem_cons]
            exact Or.inr (Or.inr hrec)
        | error e =>
            rw [pollGo_error_continue callId fetches maxA interval hasP a e (by omega) hga]
            simp only [List.mem_append, List.mem_cons]
            exact Or.inr (Or.inr hrec)

/-- When no attempt ever resolves with meaningful data, the loop ends in one
of the two timeout errors. -/
theorem pollGo_nodata (callId : String) (fetches : Nat → GetStatusFetchOutcome)
    (maxA interval : Nat) (hasP : Bool) :
    ∀ n a, maxA + 1 - a ≤ n →
      (∀ j d, fetches j = GetStatusFetchOutcome.success d → hasMeaningfulData d = false) →
      ∃ m, (pollGo callId fetches maxA interval hasP a).1 = Except.error m ∧
        (m = timeoutDataMsg ∨ m = timeoutFailedMsg) := by
  intro n
  induction n with
  | zero =>
      intro a ha hnone
      rw [pollGo_stop callId fetches maxA interval hasP a (by omega)]
      exact ⟨timeoutFailedMsg, rfl, Or.inr rfl⟩
  | succ n ih =>
      intro a ha hnone
      by_cases h : maxA < a
      · rw [pollGo_stop callId fetches maxA interval hasP a h]
        exact ⟨timeoutFailedMsg, rfl, Or.inr rfl⟩
      · have h1 : a ≤ maxA := by omega
        cases hga : (getStatus callId (fetches a)).1 with
        | ok st =>
            have hfa : fetches a = GetStatusFetchOutcome.success st :=
              (getStatus_ok_iff callId (fetches a) st).mp hga
            have hm : hasMeaningfulData st = false := hnone a st hfa
            rw [pollGo_ok_continue callId fetches maxA interval hasP a st h1 hga hm]
            exact ih (a + 1) (by omega) hnone
        | error e =>
            by_cases hlast : a = maxA
            · subst hlast
              rw [pollGo_error_last callId fetches a interval hasP e hga]
              exact ⟨timeoutDataMsg, rfl, Or.inl rfl⟩
            · rw [pollGo_error_continue callId fetches maxA interval hasP a e (by omega) hga]
              exact ih (a + 1) (by omega) hnone

/-- When the loop from a within range fails, the message is decided by the
outcome of the final attempt: a throwing final getStatus gives the
data-not-available message, a resolving one the generic loop-exit message. -/
theorem pollGo_error_final (callId : String) (fetches : Nat → GetStatusFetchOutcome)
    (maxA interval : Nat) (hasP : Bool) :
    ∀ n a, maxA + 1 - a ≤ n → a ≤ maxA →
      ∀ m, (pollGo callId fetches maxA interval hasP a).1 = Except.error m →
        ((∀ d, ¬ fetches maxA = GetStatusFetchOutcome.success d) → m = timeoutDataMsg) ∧
        (∀ d, fetches maxA = GetStatusFetchOutcome.success d → m = timeoutFailedMsg) := by
  intro n
  induction n with
  | zero =>
      intro a ha h1 m _
      omega
  | succ n ih =>
      intro a ha h1 m hm
      by_cases hlast : a = maxA
      · subst hlast
        cases hga : (getStatus callId (fetches a)).1 with
        | ok st =>
            have hfa : fetches a = GetStatusFetchOutcome.success st :=
              (getStatus_ok_iff callId (fetches a) st).mp hga
            by_cases hmeat : hasMeaningfulData st
            · rw [pollGo_ok_meaningful callId fetches a interval hasP a st (le_refl a) hga hmeat] at hm
              simp at hm
            · have hm' : hasMeaningfulData st = false := by simpa using hmeat
              rw [pollGo_ok_continue callId fetches a interval hasP a st (le_refl a) hga hm'] at hm
              rw [pollGo_stop callId fetches a interval hasP (a + 1) (by omega)] at hm
              simp at hm
              constructor
              · intro hno
                exact absurd hfa (hno st)
              · intro d _
                exact hm.symm
        | error e =>
            rw [pollGo_error_last callId fetches a interval hasP e hga] at hm
            simp at hm
            constructor
            · intro _
              exact hm.symm
            · intro d hd
              have : (getStatus callId (fetches a)).1 = Except.ok d :=
                (getStatus_ok_iff callId (fetches a) d).mpr hd
              rw [hga] at this
              simp at this
      · have h2 : a < maxA := by omega
        cases hga : (getStatus callId (fetches a)).1 with
        | ok st =>
            by_cases hmeat : hasMeaningfulData st
            · rw [pollGo_ok_meaningful callId fetches maxA interval hasP a st h1 hga hmeat] at hm
              simp at hm
            · have hm' : hasMeaningfulData st = false := by simpa using hmeat
              rw [pollGo_ok_continue callId fetches maxA interval hasP a st h1 hga hm'] at hm
              exact ih (a + 1) (by omega) (by omega) m hm
        | error e =>
            rw [pollGo_error_continue callId fetches maxA interval hasP a e h2 hga] at hm
            exact ih (a + 1) (by omega) (by omega) m hm

/-- Claim C1: for every callId and every options value, pollStatus performs
fixed-count polling: it calls getStatus at most maxAttempts times (default 5
when options.maxAttempts is absent), and if no attempt returns a response
with meaningful data it throws an Error whose message begins with
'Timeout'. -/
theorem pollStatus_fixed_count_timeout (callId : String) (options : PollOptions)
    (fetches : Nat → GetStatusFetchOutcome) :
    countRequests (pollStatus callId options fetches).2 ≤ options.maxAttempts.getD 5 ∧
    ((∀ j d, fetches j = GetStatusFetchOutcome.success d → hasMeaningfulData d = false) →
      ∃ m, (pollStatus callId options fetches).1 = Except.error m ∧
        m.take 7 = "Timeout") := by
  constructor
  · have h := pollGo_count callId fetches (options.maxAttempts.getD 5)
      (options.interval.getD 2000) options.onProgress (options.maxAttempts.getD 5) 1
      (by omega)
    rw [pollStatus]
    omega
  · intro hnone
    obtain ⟨m, hm, hor⟩ := pollGo_nodata callId fetches (options.maxAttempts.getD 5)
      (options.interval.getD 2000) options.onProgress (options.maxAttempts.getD 5) 1
      (by omega) hnone
    rw [pollStatus]
    refine ⟨m, hm, ?_⟩
    rcases hor with h | h <;> subst h <;> rfl

/-- Witness for C1: with every fetch throwing a network error and default
options, pollStatus issues at most five requests and fails with a message
beginning with 'Timeout'. -/
theorem pollStatus_fixed_count_timeout_witness :
    countRequests (pollStatus "CALL_1" {}
        (fun _ => GetStatusFetchOutcome.networkError "refused")).2 ≤ 5 ∧
    ∃ m, (pollStatus "CALL_1" {}
        (fun _ => GetStatusFetchOutcome.networkError "refused")).1 = Except.error m ∧
      m.take 7 = "Timeout" := by
  have h := pollStatus_fixed_count_timeout "CALL_1" {}
    (fun _ => GetStatusFetchOutcome.networkError "refused")
  exact ⟨h.1, h.2 (fun j d hd => nomatch hd)⟩

/-- Claim C2: pollStatus returns the StatusResponse of the first getStatus
attempt whose result has meaningful data (a non-null emergency_details or
medical_record_details object) and makes no further getStatus calls after
that attempt; an attempt that succeeds with both placeholder strings
continues to the next attempt. -/
theorem pollStatus_returns_first_meaningful (callId : String) (options : PollOptions)
    (fetches : Nat → GetStatusFetchOutcome) (k : Nat) (s : StatusResponse)
    (hk1 : 1 ≤ k) (hk2 : k ≤ options.maxAttempts.getD 5)
    (hfk : fetches k = GetStatusFetchOutcome.success s)
    (hms : hasMeaningfulData s = true)
    (hprev : ∀ j t, 1 ≤ j → j < k → fetches j = GetStatusFetchOutcome.success t →
      hasMeaningfulData t = false) :
    (pollStatus callId options fetches).1 = Except.ok s ∧
      countRequests (pollStatus callId options fetches).2 = k := by
  have h := pollGo_first_meaningful callId fetches (options.maxAttempts.getD 5)
    (options.interval.getD 2000) options.onProgress (options.maxAttempts.getD 5) 1 k s
    (by omega) hk1 hk2 hfk hms hprev
  rw [pollStatus]
  refine ⟨h.1, ?_⟩
  have h2 := h.2
  omega

/-- Witness for C2: with the first attempt returning only placeholders and
the second a medical record object, pollStatus returns the second response
after exactly two requests. -/
theorem pollStatus_returns_first_meaningful_witness :
    (pollStatus "CALL_1" {} sampleFetches).1 = Except.ok medicalResponse ∧
      countRequests (pollStatus "CALL_1" {} sampleFetches).2 = 2 := by
  refine pollStatus_returns_first_meaningful "CALL_1" {} sampleFetches 2 medicalResponse
    (by omega) (by decide) rfl rfl ?_
  intro j t h1 h2 hf
  have hj : j = 1 := by omega
  subst hj
  simp [sampleFetches] at hf
  subst hf
  rfl

/-- Claim C3: between any two consecutive getStatus attempts the routine
performs exactly one delay of interval milliseconds (default 2000), attempts
are invoked in increasing order 1, 2, ..., and onProgress (when supplied) is
called with (attempt, maxAttempts) before each getStatus call: the event
trace has the spec shape starting at attempt 1. -/
theorem pollStatus_trace_shape (callId : String) (options : PollOptions)
    (fetches : Nat → GetStatusFetchOutcome) :
    ∃ k t, (pollStatus callId options fetches).2 =
      specPollTraceFrom options.onProgress callId (options.maxAttempts.getD 5)
        (options.interval.getD 2000) 1 k t := by
  rw [pollStatus]
  exact pollGo_trace callId fetches (options.maxAttempts.getD 5)
    (options.interval.getD 2000) options.onProgress (options.maxAttempts.getD 5) 1
    (by omega)

/-- Claim C8: before the last attempt any error thrown by getStatus is
swallowed and polling continues with the next attempt; whenever pollStatus
fails, its error is one of the two fixed timeout messages — the
data-not-available one exactly when the final attempt threw — and never the
underlying getStatus error. -/
theorem pollStatus_error_behavior (callId : String) (options : PollOptions)
    (fetches : Nat → GetStatusFetchOutcome) :
    (∀ m, (pollStatus callId options fetches).1 = Except.error m →
      m = timeoutDataMsg ∨ m = timeoutFailedMsg) ∧
    (∀ m, (pollStatus callId options fetches).1 = Except.error m →
      1 ≤ options.maxAttempts.getD 5 →
      ((∀ d, ¬ fetches (options.maxAttempts.getD 5) = GetStatusFetchOutcome.success d) →
          m = timeoutDataMsg) ∧
      (∀ d, fetches (options.maxAttempts.getD 5) = GetStatusFetchOutcome.success d →
          m = timeoutFailedMsg)) ∧
    (∀ a, 1 ≤ a → a < options.maxAttempts.getD 5 →
      (∀ j t, 1 ≤ j → j ≤ a → fetches j = GetStatusFetchOutcome.success t →
        hasMeaningfulData t = false) →
      PollEvent.request (a + 1) (statusRequest callId) ∈
        (pollStatus callId options fetches).2) := by
  refine ⟨?_, ?_, ?_⟩
  · intro m hm
    rw [pollStatus] at hm
    exact pollGo_error_msgs callId fetches (options.maxAttempts.getD 5)
      (options.interval.getD 2000) options.onProgress (options.maxAttempts.getD 5) 1
      (by omega) m hm
  · intro m hm h1
    rw [pollStatus] at hm
    exact pollGo_error_final callId fetches (options.maxAttempts.getD 5)
      (options.interval.getD 2000) options.onProgress (options.maxAttempts.getD 5) 1
      (by omega) h1 m hm
  · intro a h1 h2 hprev
    rw [pollStatus]
    exact pollGo_request_mem callId fetches (options.maxAttempts.getD 5)
      (options.interval.getD 2000) options.onProgress (options.maxAttempts.getD 5) 1
      (a + 1) (by omega) (by omega) (by omega)
      (fun j t hj1 hj2 hf => hprev j t hj1 (by omega) hf)

/-- Witness for C8: with every fetch throwing, the second attempt's request
is issued and the failure message is the data-not-available timeout. -/
theorem pollStatus_error_behavior_witness :
    PollEvent.request 2
        (statusRequest "CALL_1") ∈
      (pollStatus "CALL_1" {}
        (fun _ => GetStatusFetchOutcome.networkError "boom")).2 ∧
    (pollStatus "CALL_1" {}
        (fun _ => GetStatusFetchOutcome.networkError "boom")).1 =
      Except.error timeoutDataMsg := by
  have h := pollStatus_error_behavior "CALL_1" {}
    (fun _ => GetStatusFetchOutcome.networkError "boom")
  constructor
  · exact h.2.2 1 (by omega) (by decide) (fun j t hj1 hj2 hf => nomatch hf)
  · obtain ⟨m, hm, _⟩ := pollGo_nodata "CALL_1"
      (fun _ => GetStatusFetchOutcome.networkError "boom") 5 2000 false 5 1 (by omega)
      (fun j d hd => nomatch hd)
    have hm' : (pollStatus "CALL_1" {}
        (fun _ => GetStatusFetchOutcome.networkError "boom")).1 = Except.error m := hm
    have hdata := (h.2.1 m hm' (by decide)).1 (fun d hd => nomatch hd)
    rw [← hdata]
    exact hm'

/-- Claim C7 counterexample: the request analyzeQuery issues goes to a URL
that begins with 'https://', not 'http://', so the services are not reached
over plain HTTP. -/
theorem analyzeQuery_not_plain_http :
    (analyzeQuery "chest pain" (AnalyzeFetchOutcome.networkError "offline")).2.map
        Request.url = ["https://nokia-multi-agent.vercel.app/analyze"] ∧
    ¬ ("https://nokia-multi-agent.vercel.app/analyze".take 7 = "http://") := by
  constructor
  · rfl
  · decide

/-- Claim C7 (amended): every network request issued by the API service
module (analyzeQuery, getStatus, pollStatus, checkMultiAgentHealth,
checkBackendHealth) goes to one of exactly two fixed base URLs — the
multi-agent host for /analyze and /health, the backend host for /status and
/ — and both base URLs use HTTPS rather than plain HTTP. -/
theorem api_requests_fixed_bases (query callId : String) (ao : AnalyzeFetchOutcome)
    (so : GetStatusFetchOutcome) (options : PollOptions)
    (fetches : Nat → GetStatusFetchOutcome) (ho1 ho2 : HealthFetchOutcome) :
    (analyzeQuery query ao).2 =
      [{ method := "POST", url := MULTI_AGENT_BASE_URL ++ "/analyze" }] ∧
    (getStatus callId so).2 =
      [{ method := "GET",
         url := BACKEND_BASE_URL ++ "/status?call_id=" ++ encodeURIComponent callId }] ∧
    (∀ r ∈ pollRequests (pollStatus callId options fetches).2,
      r = statusRequest callId) ∧
    (checkMultiAgentHealth ho1).2 =
      [{ method := "GET", url := MULTI_AGENT_BASE_URL ++ "/health" }] ∧
    (checkBackendHealth ho2).2 = [{ method := "GET", url := BACKEND_BASE_URL ++ "/" }] ∧
    MULTI_AGENT_BASE_URL.take 8 = "https://" ∧
    BACKEND_BASE_URL.take 8 = "https://" := by
  refine ⟨rfl, rfl, ?_, rfl, rfl, rfl, rfl⟩
  rw [pollStatus]
  exact pollGo_requests_all callId fetches (options.maxAttempts.getD 5)
    (options.interval.getD 2000) options.onProgress (options.maxAttempts.getD 5) 1
    (by omega)

/-- Witness for the amended C7 at concrete inputs: the analyze request and
the backend health request, and the one request of a poll attempt. -/
theorem api_requests_fixed_bases_witness :
    (analyzeQuery "chest pain" (AnalyzeFetchOutcome.networkError "offline")).2 =
      [{ method := "POST", url := "https://nokia-multi-agent.vercel.app/analyze" }] ∧
    (checkBackendHealth (HealthFetchOutcome.resolved true)).2 =
      [{ method := "GET", url := "https://nokia-backend.vercel.app/" }] ∧
    statusRequest "CALL_1" ∈
      pollRequests (pollStatus "CALL_1" {}
        (fun _ => GetStatusFetchOutcome.networkError "x")).2 := by
  have h := api_requests_fixed_bases "chest pain" "CALL_1"
    (AnalyzeFetchOutcome.networkError "offline") (GetStatusFetchOutcome.networkError "x")
    {} (fun _ => GetStatusFetchOutcome.networkError "x")
    (HealthFetchOutcome.resolved true) (HealthFetchOutcome.resolved true)
  have hmem : PollEvent.request 1 (statusRequest "CALL_1") ∈
      (pollStatus "CALL_1" {} (fun _ => GetStatusFetchOutcome.networkError "x")).2 :=
    pollGo_request_mem "CALL_1" (fun _ => GetStatusFetchOutcome.networkError "x")
      5 2000 false 5 1 1 (by omega) (le_refl 1) (by omega)
      (fun j t hj1 hj2 hf => by omega)
  have hr : statusRequest "CALL_1" ∈
      pollRequests (pollStatus "CALL_1" {}
        (fun _ => GetStatusFetchOutcome.networkError "x")).2 :=
    List.mem_filterMap.mpr ⟨PollEvent.request 1 (statusRequest "CALL_1"), hmem, rfl⟩
  refine ⟨h.1, h.2.2.2.2.1, ?_⟩
  have := h.2.2.1 (statusRequest "CALL_1") hr
  exact hr

/-- Claim C9: checkMultiAgentHealth and checkBackendHealth never throw; each
returns true exactly when the fetch resolved with an ok response, and false
both on a resolved non-ok response and on a thrown network error. -/
theorem healthChecks_never_throw (o1 o2 : HealthFetchOutcome) :
    ((checkMultiAgentHealth o1).1 = true ↔ o1 = HealthFetchOutcome.resolved true) ∧
    ((checkBackendHealth o2).1 = true ↔ o2 = HealthFetchOutcome.resolved true) := by
  constructor
  · cases o1 with
    | resolved ok => simp [checkMultiAgentHealth]
    | networkError e => simp [checkMultiAgentHealth]
  · cases o2 with
    | resolved ok => simp [checkBackendHealth]
    | networkError e => simp [checkBackendHealth]

/-- Witness for C9: a thrown network error yields false, an ok response
yields true. -/
theorem healthChecks_never_throw_witness :
    (checkMultiAgentHealth (HealthFetchOutcome.networkError "refused")).1 = false ∧
    (checkBackendHealth (HealthFetchOutcome.resolved true)).1 = true := by
  have h := healthChecks_never_throw (HealthFetchOutcome.networkError "refused")
    (HealthFetchOutcome.resolved true)
  constructor
  · have h1 := h.1
    simp at h1
    exact h1
  · exact h.2.mpr rfl

/-- Claim C4: endCall always results in a state with no active peer call,
every track of the local stream stopped and the local stream cleared, the
remote stream cleared, and the isCallActive, isCalling, isMuted and
isVideoOff flags all false — regardless of the prior state. -/
theorem endCall_teardown (s : VideoCallState) :
    (endCall s).1.currentCall = none ∧
    (endCall s).1.localStream = none ∧
    (endCall s).1.remoteStream = none ∧
    (endCall s).1.isCallActive = false ∧
    (endCall s).1.isCalling = false ∧
    (endCall s).1.isMuted = false ∧
    (endCall s).1.isVideoOff = false ∧
    (endCall s).2.stoppedTracks =
      (s.localStream.map (fun ls => ls.tracks.map stopTrack)).getD [] ∧
    (∀ t ∈ (endCall s).2.stoppedTracks, t.stopped = true) := by
  refine ⟨rfl, rfl, rfl, rfl, rfl, rfl, rfl, ?_, ?_⟩
  · cases hls : s.localStream with
    | none => simp [endCall, hls]
    | some ls => simp [endCall, hls]
  · intro t ht
    cases hls : s.localStream with
    | none => simp [endCall, hls] at ht
    | some ls =>
        simp [endCall, hls] at ht
        obtain ⟨u, hu, rfl⟩ := ht
        rfl

/-- Witness for C4: at a concrete in-call state every flag clears and both
tracks come back stopped. -/
theorem endCall_teardown_witness :
    (endCall sampleState).1.currentCall = none ∧
    (endCall sampleState).1.isCallActive = false ∧
    (endCall sampleState).2.stoppedTracks =
      [{ kind := "audio", enabled := true, stopped := true },
       { kind := "video", enabled := true, stopped := true }] ∧
    (stopTrack audioTrackSample).stopped = true := by
  have h := endCall_teardown sampleState
  refine ⟨h.1, h.2.2.2.1, by decide, ?_⟩
  exact h.2.2.2.2.2.2.2.2 (stopTrack audioTrackSample) (by decide)

/-- Toggling the first audio track twice restores the track list. -/
theorem updateFirstAudio_twice (ts : List MediaStreamTrack) :
    updateFirstAudio (updateFirstAudio ts) = ts := by
  induction ts with
  | nil => rfl
  | cons t rest ih =>
      by_cases hk : t.kind == "audio"
      · simp [updateFirstAudio, hk, Bool.not_not]
      · simp [updateFirstAudio, hk, ih]

/-- After the toggle, the first audio track is the old one with its enabled
flag negated. -/
theorem firstAudioTrack_updateFirstAudio (ts : List MediaStreamTrack) :
    firstAudioTrack (updateFirstAudio ts) =
      (firstAudioTrack ts).map (fun t => { t with enabled := !t.enabled }) := by
  induction ts with
  | nil => rfl
  | cons t rest ih =>
      by_cases hk : t.kind == "audio"
      · simp [updateFirstAudio, firstAudioTrack, hk]
      · simp [updateFirstAudio, firstAudioTrack, hk, ih]

/-- Claim C10: toggleMute, when a local stream with an audio track exists,
negates the audio track's enabled flag and sets isMuted to the negation of
the new enabled value, and applying toggleMute twice restores the original
enabled state; with no local stream or no audio track it changes nothing. -/
theorem toggleMute_spec (s : VideoCallState) :
    (s.localStream = none → toggleMute s = s) ∧
    (∀ ls, s.localStream = some ls → firstAudioTrack ls.tracks = none →
      toggleMute s = s) ∧
    (∀ ls a, s.localStream = some ls → firstAudioTrack ls.tracks = some a →
      ((toggleMute s).localStream.map (fun ms => firstAudioTrack ms.tracks)) =
        some (some { a with enabled := !a.enabled }) ∧
      (toggleMute s).isMuted = !(!a.enabled) ∧
      (toggleMute (toggleMute s)).localStream = s.localStream ∧
      (toggleMute s).isCallActive = s.isCallActive ∧
      (toggleMute s).isVideoOff = s.isVideoOff ∧
      (toggleMute s).remoteStream = s.remoteStream) := by
  refine ⟨?_, ?_, ?_⟩
  · intro h
    simp [toggleMute, h]
  · intro ls hls hfa
    simp [toggleMute, hls, hfa]
  · intro ls a hls hfa
    refine ⟨?_, ?_, ?_, ?_, ?_, ?_⟩
    · simp [toggleMute, hls, hfa, firstAudioTrack_updateFirstAudio]
    · simp [toggleMute, hls, hfa]
    · simp [toggleMute, hls, hfa, firstAudioTrack_updateFirstAudio,
        updateFirstAudio_twice]
    · simp [toggleMute, hls, hfa]
    · simp [toggleMute, hls, hfa]
    · simp [toggleMute, hls, hfa]

/-- Witness for C10: at the concrete in-call state the toggle disables the
audio track and sets isMuted, and toggling twice restores the stream. -/
theorem toggleMute_spec_witness :
    (toggleMute sampleState).isMuted = true ∧
    ((toggleMute sampleState).localStream.map (fun ms => firstAudioTrack ms.tracks)) =
      some (some { kind := "audio", enabled := false, stopped := false }) ∧
    (toggleMute (toggleMute sampleState)).localStream = sampleState.localStream := by
  have h := (toggleMute_spec sampleState).2.2 sampleStream audioTrackSample rfl rfl
  exact ⟨h.2.1, h.1, h.2.2.1⟩

/-- With no video sender, replaceTrack finds nothing and the senders are
untouched. -/
theorem replaceVideoSender_none (l : List Sender) (nt : Option MediaStreamTrack)
    (h : firstVideoSenderIdx l = none) : replaceVideoSender l nt = l := by
  induction l with
  | nil => rfl
  | cons sn rest ih =>
      by_cases hv : isVideoSender sn
      · simp [firstVideoSenderIdx, hv] at h
      · simp only [firstVideoSenderIdx, hv, if_false, Bool.false_eq_true,
          Option.map_eq_none'] at h
        simp [replaceVideoSender, hv, ih h]

/-- Every sender other than the found video sender is untouched by the
replacement. -/
theorem replaceVideoSender_sameAt (l : List Sender) (nt : Option MediaStreamTrack)
    (i : Nat) (h : firstVideoSenderIdx l = some i) :
    ∀ j, j ≠ i → (replaceVideoSender l nt)[j]? = l[j]? := by
  induction l generalizing i with
  | nil => simp [firstVideoSenderIdx] at h
  | cons sn rest ih =>
      intro j hj
      by_cases hv : isVideoSender sn
      · simp only [firstVideoSenderIdx, hv, if_true] at h
        obtain rfl : i = 0 := by
          cases h
          rfl
        cases j with
        | zero => exact absurd rfl hj
        | succ j' => simp [replaceVideoSender, hv]
      · simp only [firstVideoSenderIdx, hv, if_false, Bool.false_eq_true,
          Option.map_eq_some'] at h
        obtain ⟨i', hi', rfl⟩ := h
        cases j with
        | zero => simp [replaceVideoSender, hv]
        | succ j' =>
            simp only [replaceVideoSender, hv, if_false, Bool.false_eq_true,
              List.getElem?_cons_succ]
            exact ih i' hi' j' (by omega)

/-- The found video sender carries the new track after the replacement. -/
theorem replaceVideoSender_at (l : List Sender) (nt : Option MediaStreamTrack)
    (i : Nat) (h : firstVideoSenderIdx l = some i) :
    (replaceVideoSender l nt)[i]?.map Sender.track = some nt := by
  induction l generalizing i with
  | nil => simp [firstVideoSenderIdx] at h
  | cons sn rest ih =>
      by_cases hv : isVideoSender sn
      · simp only [firstVideoSenderIdx, hv, if_true] at h
        obtain rfl : i = 0 := by
          cases h
          rfl
        simp [replaceVideoSender, hv]
      · simp only [firstVideoSenderIdx, hv, if_false, Bool.false_eq_true,
          Option.map_eq_some'] at h
        obtain ⟨i', hi', rfl⟩ := h
        simp only [replaceVideoSender, hv, if_false, Bool.false_eq_true,
          List.getElem?_cons_succ]
        exact ih i' hi'

/-- Claim C5: flipCamera, when a local stream exists and the new getUserMedia
stream arrives, toggles facingMode between user and environment, replaces
only the video track sent on the peer connection — every other sender, in
particular the audio one, is untouched — and leaves the isCallActive,
isMuted and isVideoOff flags unchanged; when no local stream exists it
changes nothing. -/
theorem flipCamera_spec (s : VideoCallState) (ns : MediaStream) :
    (s.localStream = none → ∀ r, flipCamera s r = s) ∧
    (∀ ls, s.localStream = some ls →
      (flipCamera s (Except.ok ns)).facingMode =
        (if s.facingMode = FacingMode.user then FacingMode.environment
          else FacingMode.user) ∧
      (flipCamera s (Except.ok ns)).isCallActive = s.isCallActive ∧
      (flipCamera s (Except.ok ns)).isMuted = s.isMuted ∧
      (flipCamera s (Except.ok ns)).isVideoOff = s.isVideoOff ∧
      (flipCamera s (Except.ok ns)).localStream = some ns ∧
      (s.currentCall = none → (flipCamera s (Except.ok ns)).currentCall = none) ∧
      (∀ c, s.currentCall = some c → c.peerConnection = none →
        (flipCamera s (Except.ok ns)).currentCall = some c) ∧
      (∀ c pc, s.currentCall = some c → c.peerConnection = some pc →
        ∃ pc2,
          (flipCamera s (Except.ok ns)).currentCall =
            some { c with peerConnection := some pc2 } ∧
          pc2.senders = replaceVideoSender pc.senders (firstVideoTrack ns.tracks) ∧
          (firstVideoSenderIdx pc.senders = none → pc2.senders = pc.senders) ∧
          (∀ i, firstVideoSenderIdx pc.senders = some i →
            (∀ j, j ≠ i → pc2.senders[j]? = pc.senders[j]?) ∧
            pc2.senders[i]?.map Sender.track =
              some (firstVideoTrack ns.tracks)))) := by
  constructor
  · intro h r
    simp [flipCamera, h]
  · intro ls hls
    refine ⟨?_, ?_, ?_, ?_, ?_, ?_, ?_, ?_⟩
    · simp [flipCamera, hls]
    · simp [flipCamera, hls]
    · simp [flipCamera, hls]
    · simp [flipCamera, hls]
    · simp [flipCamera, hls]
    · intro hc
      simp [flipCamera, hls, hc]
    · intro c hc hpc
      simp [flipCamera, hls, hc, hpc]
    · intro c pc hc hpc
      refine ⟨{ pc with
          senders := replaceVideoSender pc.senders (firstVideoTrack ns.tracks) },
        ?_, rfl, ?_, ?_⟩
      · simp [flipCamera, hls, hc, hpc]
      · intro hnone
        exact replaceVideoSender_none pc.senders (firstVideoTrack ns.tracks) hnone
      · intro i hi
        exact ⟨replaceVideoSender_sameAt pc.senders (firstVideoTrack ns.tracks) i hi,
          replaceVideoSender_at pc.senders (firstVideoTrack ns.tracks) i hi⟩

/-- Witness for C5: at the concrete in-call state the camera flips to the
environment mode, the flags survive, the audio sender at index 0 is
untouched and the video sender at index 1 carries the new track. -/
theorem flipCamera_spec_witness :
    (flipCamera sampleState (Except.ok newStreamSample)).facingMode =
      FacingMode.environment ∧
    (flipCamera sampleState (Except.ok newStreamSample)).isCallActive = true ∧
    (flipCamera sampleState (Except.ok newStreamSample)).isMuted = false ∧
    ∃ pc2,
      (flipCamera sampleState (Except.ok newStreamSample)).currentCall =
        some { peerConnection := some pc2 } ∧
      pc2.senders[0]? = samplePeerConnection.senders[0]? ∧
      pc2.senders[1]?.map Sender.track =
        some (firstVideoTrack newStreamSample.tracks) := by
  have h := (flipCamera_spec sampleState newStreamSample).2 sampleStream rfl
  obtain ⟨pc2, hcall, hsenders, hnone, hat⟩ :=
    h.2.2.2.2.2.2.2 sampleCall samplePeerConnection rfl rfl
  have hidx : firstVideoSenderIdx samplePeerConnection.senders = some 1 := by decide
  refine ⟨h.1, h.2.1, h.2.2.1, pc2, hcall, ?_, (hat 1 hidx).2⟩
  exact (hat 1 hidx).1 0 (by omega)

/-- Claim C6: a Vapi message appends an entry to the transcript (both ref
and state) if and only if it is a final transcript message; the entry's
speaker is 'doctor' exactly when the role is 'assistant' and 'patient'
otherwise, its text is the message's transcript field, and every other
message leaves the transcript unchanged. -/
theorem onVapiMessage_spec (st : FirstScreenState) (m : VapiMessage) :
    (m.type = some "transcript" → m.transcriptType = some "final" →
      onVapiMessage st m =
        { transcript := st.transcript ++
            [{ speaker := if m.role = some "assistant" then "doctor" else "patient",
               text := m.transcript }],
          transcriptRef := st.transcriptRef ++
            [{ speaker := if m.role = some "assistant" then "doctor" else "patient",
               text := m.transcript }] }) ∧
    (¬ (m.type = some "transcript" ∧ m.transcriptType = some "final") →
      onVapiMessage st m = st) := by
  constructor
  · intro h1 h2
    simp [onVapiMessage, h1, h2]
  · intro h
    by_cases hA : m.type = some "transcript"
    · by_cases hB : m.transcriptType = some "final"
      · exact absurd ⟨hA, hB⟩ h
      · simp [onVapiMessage, hA, hB]
    · simp [onVapiMessage, hA]

/-- Witness for C6: a final assistant transcript appends a doctor entry to
both lists, while a conversation-update message changes nothing. -/
theorem onVapiMessage_spec_witness :
    onVapiMessage { transcript := [], transcriptRef := [] }
        { type := some "transcript", transcriptType := some "final",
          role := some "assistant", transcript := some "I understand" } =
      { transcript := [{ speaker := "doctor", text := some "I understand" }],
        transcriptRef := [{ speaker := "doctor", text := some "I understand" }] } ∧
    onVapiMessage { transcript := [], transcriptRef := [] }
        { type := some "conversation-update", transcriptType := none,
          role := none, transcript := none } =
      { transcript := [], transcriptRef := [] } := by
  have h1 := (onVapiMessage_spec { transcript := [], transcriptRef := [] }
    { type := some "transcript", transcriptType := some "final",
      role := some "assistant", transcript := some "I understand" }).1 rfl rfl
  have h2 := (onVapiMessage_spec { transcript := [], transcriptRef := [] }
    { type := some "conversation-update", transcriptType := none,
      role := none, transcript := none }).2 (by simp)
  constructor
  · rw [h1]
    decide
  · exact h2
